import Mathlib

/-!
# Verification of huntarr-minimal (`src/huntarr.py`)

Shallow embedding of the sampling-and-deduplication engine of
`huntarr.py` and proofs about it.

Modelling conventions:

* Timestamps are integers (`Int`).  The Python code stores
  `datetime.now(utc).isoformat()` strings and compares them with SQL
  string comparison; for fixed-offset UTC isoformat strings the
  lexicographic order coincides with chronological order, so an `Int`
  time line is a faithful abstraction.  `ttl_hours` is likewise an
  `Int` measured in the same units.
* The SQLite table `searched` is a list of rows (`DB`); the
  `INSERT OR REPLACE` upsert removes any row with the same primary key
  before inserting, which is exactly what SQLite does.
* Network I/O is replaced by an explicit environment (`HuntEnv`): the
  responses of the two GET requests of a hunt (total count, page
  records) and the success of each POST `command` trigger.  A failing
  GET is modelled as `Except.error ()`, mirroring the exception raised
  by `raise_for_status` / transport errors; since the Python
  orchestrator has no `try`/`except` around the hunt calls, errors
  propagate through `run` via the `Except` monad.
* `_parse_date` applied to a raw JSON field is modelled by storing the
  field as `Option (Option Int)`: `none` is a missing/falsy raw value,
  `some none` a present but unparseable string, `some (some d)` a
  present string parsing to time `d`.
* `random.randint` and `random.sample` are modelled by functions that
  consume an explicit stream of random numbers and draw indices
  without replacement.
-/

namespace Huntarr

/-- One row of the `searched` SQLite table (`StateDB`). -/
structure Entry where
  app : String
  inst : String
  mediaId : String
  searchedAt : Int
deriving Repr, DecidableEq

/-- The `searched` table: the ledger of recently searched media ids. -/
abbrev DB := List Entry

/-- Primary-key match of a row against `(app, instance, media_id)`. -/
def keyMatches (e : Entry) (app inst mid : String) : Bool :=
  e.app == app && e.inst == inst && e.mediaId == mid

/-- Models `StateDB.is_searched`: a row with this key exists whose
`searched_at` is strictly newer than `now - ttl_hours`. -/
def is_searched (db : DB) (ttl now : Int) (app inst mid : String) : Bool :=
  db.any fun e => keyMatches e app inst mid && decide (now - ttl < e.searchedAt)

/-- Models `StateDB.mark_searched`: `INSERT OR REPLACE` of the row
`(app, instance, media_id, now)`. -/
def mark_searched (db : DB) (now : Int) (app inst mid : String) : DB :=
  ⟨app, inst, mid, now⟩ :: db.filter (fun e => !keyMatches e app inst mid)

/-- Models `StateDB.purge_expired`: `DELETE FROM searched WHERE searched_at <= cutoff`
with `cutoff = now - ttl_hours`; returns the surviving table and the
number of deleted rows (`cur.rowcount`). -/
def purge_expired (db : DB) (ttl now : Int) : DB × Nat :=
  (db.filter (fun e => decide (now - ttl < e.searchedAt)),
   (db.filter (fun e => decide (e.searchedAt ≤ now - ttl))).length)

/-- A Sonarr `wanted/missing` / `wanted/cutoff` record, with the fields
the hunts read.  `airDateUtc` models the raw `airDateUtc` JSON field:
`none` = absent, `some p` = present with `_parse_date` result `p`. -/
structure Episode where
  id : Nat
  monitored : Bool
  seriesMonitored : Bool
  airDateUtc : Option (Option Int)
deriving Repr, DecidableEq

/-- A Radarr record, with the fields the hunts read; the three date
fields use the same `Option (Option Int)` encoding as `Episode`. -/
structure Movie where
  id : Nat
  monitored : Bool
  releaseDate : Option (Option Int)
  digitalRelease : Option (Option Int)
  physicalRelease : Option (Option Int)
deriving Repr, DecidableEq

/-- Models `_parse_date(ep.get("airDateUtc"))`: `None` when the field is
missing or unparseable, otherwise the parsed time. -/
def episodeDate (ep : Episode) : Option Int :=
  ep.airDateUtc.bind id

/-- Monitored filter of the Sonarr hunts:
`ep.get("series", {}).get("monitored", False) and ep.get("monitored", False)`. -/
def epMonitoredKeep (ep : Episode) : Bool :=
  ep.seriesMonitored && ep.monitored

/-- Future filter of `sonarr_hunt_missing`: keep the episode iff
`not (d := _parse_date(ep.get("airDateUtc"))) or d <= now`. -/
def epFutureKeep (now : Int) (ep : Episode) : Bool :=
  match episodeDate ep with
  | none => true
  | some d => decide (d ≤ now)

/-- Models `m.get("releaseDate") or m.get("digitalRelease") or m.get("physicalRelease")`:
the first present (truthy) raw date field, if any. -/
def movieRawDate (m : Movie) : Option (Option Int) :=
  (m.releaseDate.orElse fun _ => m.digitalRelease.orElse fun _ => m.physicalRelease)

/-- Models `rd = _parse_date(...)` of `radarr_hunt_missing`: the parse result
of the first present raw date field. -/
def movieDate (m : Movie) : Option Int :=
  (movieRawDate m).bind id

/-- Future filter of `radarr_hunt_missing`: the movie is dropped iff
`rd and rd > now`, hence kept iff `rd` is `None` or `rd <= now`. -/
def movieFutureKeep (now : Int) (m : Movie) : Bool :=
  match movieDate m with
  | none => true
  | some d => decide (d ≤ now)

/-- Page-size / page-count arithmetic shared by all four hunts:
`page_size = min(100, total)`;
`total_pages = max(1, (total + page_size - 1) // page_size)`. -/
def pageMath (total : Nat) : Nat × Nat :=
  let pageSize := min 100 total
  (pageSize, max 1 ((total + pageSize - 1) / pageSize))

/-- Models `random.randint(1, total_pages)` with the random draw `r` made
explicit: some page in `1 .. total_pages` (inclusive). -/
def choosePage (r totalPages : Nat) : Nat :=
  r % totalPages + 1

/-- Models `random.sample(xs, k)` with the random draws made explicit: `k`
successive draws of an index without replacement, each draw taken from
the head of the stream `rs` modulo the number of remaining elements. -/
def sample : List Nat → List α → Nat → List α
  | _, _, 0 => []
  | _, [], _ + 1 => []
  | rs, x :: xt, k + 1 =>
    let i := rs.headD 0 % (x :: xt).length
    (x :: xt).get ⟨i, Nat.mod_lt _ (by simp)⟩ ::
      sample rs.tail ((x :: xt).eraseIdx i) k

/-- Environment of one hunt: the remote's answers to the count GET and
the page GET (`countFails` / `pageFails` model a transport or protocol
failure, i.e. a raised exception), the randomness consumed, and the
outcome of the POST `command` trigger per media id. -/
structure HuntEnv (α : Type) where
  countFails : Bool
  totalRecords : Nat
  pageFails : Bool
  pageRecords : List α
  rPage : Nat
  rSample : List Nat
  triggerOk : Nat → Bool

/-- Result of one hunt: the ledger afterwards, the ids for which a
trigger POST was issued (in order, successful or not), and the
`searched` counter returned by the hunt. -/
abbrev HuntResult := DB × List Nat × Nat

/-- The per-item loop shared by all four hunts, over the ids of the
selected items: in dry-run mode only log; otherwise POST the trigger
and, only when it succeeds, `mark_searched` the id and count it. -/
def processItems (dryRun : Bool) (triggerOk : Nat → Bool) (app inst : String)
    (now : Int) (db : DB) : List Nat → HuntResult
  | [] => (db, [], 0)
  | i :: rest =>
    if dryRun then
      processItems dryRun triggerOk app inst now db rest
    else if triggerOk i then
      let r := processItems dryRun triggerOk app inst now
        (mark_searched db now app inst (toString i)) rest
      (r.1, i :: r.2.1, r.2.2 + 1)
    else
      let r := processItems dryRun triggerOk app inst now db rest
      (r.1, i :: r.2.1, r.2.2)

/-- Candidate pipeline of `sonarr_hunt_missing` (lines 202-221):
monitored filter, future filter, then already-searched filter against
the `"sonarr"` ledger kind. -/
def sonarrMissingCandidates (page : List Episode) (db : DB) (ttl now : Int)
    (inst : String) (monitoredOnly skipFuture : Bool) : List Episode :=
  let eps := if monitoredOnly then page.filter epMonitoredKeep else page
  let eps := if skipFuture then eps.filter (epFutureKeep now) else eps
  eps.filter fun ep => !is_searched db ttl now "sonarr" inst (toString ep.id)

/-- Candidate pipeline of `sonarr_hunt_upgrades` (lines 283-292):
monitored filter, then already-searched filter against the
`"sonarr_upgrade"` ledger kind; no future filter. -/
def sonarrUpgradeCandidates (page : List Episode) (db : DB) (ttl now : Int)
    (inst : String) (monitoredOnly : Bool) : List Episode :=
  let eps := if monitoredOnly then page.filter epMonitoredKeep else page
  eps.filter fun ep => !is_searched db ttl now "sonarr_upgrade" inst (toString ep.id)

/-- Candidate pipeline of `radarr_hunt_missing` (lines 357-375). -/
def radarrMissingCandidates (page : List Movie) (db : DB) (ttl now : Int)
    (inst : String) (monitoredOnly skipFuture : Bool) : List Movie :=
  let ms := if monitoredOnly then page.filter (fun m => m.monitored) else page
  let ms := if skipFuture then ms.filter (movieFutureKeep now) else ms
  ms.filter fun m => !is_searched db ttl now "radarr" inst (toString m.id)

/-- Candidate pipeline of `radarr_hunt_upgrades` (lines 433-439). -/
def radarrUpgradeCandidates (page : List Movie) (db : DB) (ttl now : Int)
    (inst : String) (monitoredOnly : Bool) : List Movie :=
  let ms := if monitoredOnly then page.filter (fun m => m.monitored) else page
  ms.filter fun m => !is_searched db ttl now "radarr_upgrade" inst (toString m.id)

/-- Models `sonarr_hunt_missing`: count GET, `total == 0` short circuit, page
GET, filters, random selection of `min(limit, len(candidates))`
episodes, then the trigger loop.  A failing GET raises, modelled by
`Except.error ()`. -/
def sonarr_hunt_missing (env : HuntEnv Episode) (inst : String) (db : DB)
    (ttl now : Int) (limit : Nat) (monitoredOnly skipFuture dryRun : Bool) :
    Except Unit HuntResult :=
  if env.countFails then .error () else
  if env.totalRecords = 0 then .ok (db, [], 0) else
  if env.pageFails then .error () else
  let candidates := sonarrMissingCandidates env.pageRecords db ttl now inst
    monitoredOnly skipFuture
  if candidates.isEmpty then .ok (db, [], 0) else
  let toSearch := (sample env.rSample candidates (min limit candidates.length)).map (·.id)
  .ok (processItems dryRun env.triggerOk "sonarr" inst now db toSearch)

/-- Models `sonarr_hunt_upgrades`: same shape, `wanted/cutoff` source, ledger
kind `"sonarr_upgrade"`, and no future filter. -/
def sonarr_hunt_upgrades (env : HuntEnv Episode) (inst : String) (db : DB)
    (ttl now : Int) (limit : Nat) (monitoredOnly dryRun : Bool) :
    Except Unit HuntResult :=
  if env.countFails then .error () else
  if env.totalRecords = 0 then .ok (db, [], 0) else
  if env.pageFails then .error () else
  let candidates := sonarrUpgradeCandidates env.pageRecords db ttl now inst monitoredOnly
  if candidates.isEmpty then .ok (db, [], 0) else
  let toSearch := (sample env.rSample candidates (min limit candidates.length)).map (·.id)
  .ok (processItems dryRun env.triggerOk "sonarr_upgrade" inst now db toSearch)

/-- Models `radarr_hunt_missing`. -/
def radarr_hunt_missing (env : HuntEnv Movie) (inst : String) (db : DB)
    (ttl now : Int) (limit : Nat) (monitoredOnly skipFuture dryRun : Bool) :
    Except Unit HuntResult :=
  if env.countFails then .error () else
  if env.totalRecords = 0 then .ok (db, [], 0) else
  if env.pageFails then .error () else
  let candidates := radarrMissingCandidates env.pageRecords db ttl now inst
    monitoredOnly skipFuture
  if candidates.isEmpty then .ok (db, [], 0) else
  let toSearch := (sample env.rSample candidates (min limit candidates.length)).map (·.id)
  .ok (processItems dryRun env.triggerOk "radarr" inst now db toSearch)

/-- Models `radarr_hunt_upgrades`. -/
def radarr_hunt_upgrades (env : HuntEnv Movie) (inst : String) (db : DB)
    (ttl now : Int) (limit : Nat) (monitoredOnly dryRun : Bool) :
    Except Unit HuntResult :=
  if env.countFails then .error () else
  if env.totalRecords = 0 then .ok (db, [], 0) else
  if env.pageFails then .error () else
  let candidates := radarrUpgradeCandidates env.pageRecords db ttl now inst monitoredOnly
  if candidates.isEmpty then .ok (db, [], 0) else
  let toSearch := (sample env.rSample candidates (min limit candidates.length)).map (·.id)
  .ok (processItems dryRun env.triggerOk "radarr_upgrade" inst now db toSearch)

/-- One configured Sonarr instance together with its per-cycle
environment: config fields from `config.yaml`, `hasUrl`/`hasApiKey`
for the non-emptiness check of `url`/`api_key`, `connOk` for the
outcome of `check_connection`, and the environments of its two hunts. -/
structure SonarrInst where
  name : String
  hasUrl : Bool
  hasApiKey : Bool
  connOk : Bool
  hunt_missing : Int
  hunt_upgrades : Int
  monitored_only : Bool
  skip_future : Bool
  missingEnv : HuntEnv Episode
  upgradesEnv : HuntEnv Episode

/-- One configured Radarr instance with its environment. -/
structure RadarrInst where
  name : String
  hasUrl : Bool
  hasApiKey : Bool
  connOk : Bool
  hunt_missing : Int
  hunt_upgrades : Int
  monitored_only : Bool
  skip_future : Bool
  missingEnv : HuntEnv Movie
  upgradesEnv : HuntEnv Movie

/-- The configuration consumed by `run`: `state.ttl_hours` and the two
instance lists. -/
structure Config where
  ttlHours : Int
  sonarr : List SonarrInst
  radarr : List RadarrInst

/-- The `totals` dict returned by `run`. -/
structure Totals where
  sonarr_missing : Nat
  sonarr_upgrades : Nat
  radarr_missing : Nat
  radarr_upgrades : Nat
deriving Repr, DecidableEq

/-- The body of the Sonarr instance loop of `run` (lines 487-513):
skip on missing url/api key, skip on failed connection check, then the
two hunts guarded by `hunt_missing > 0` / `hunt_upgrades > 0`.
Returns ledger, trigger log, missing count, upgrades count. -/
def runSonarrInst (dryRun : Bool) (ttl now : Int) (db : DB) (i : SonarrInst) :
    Except Unit (DB × List Nat × Nat × Nat) :=
  if !i.hasUrl || !i.hasApiKey then .ok (db, [], 0, 0)
  else if !i.connOk then .ok (db, [], 0, 0)
  else do
    let (db1, log1, m) ←
      if i.hunt_missing > 0 then
        sonarr_hunt_missing i.missingEnv i.name db ttl now i.hunt_missing.toNat
          i.monitored_only i.skip_future dryRun
      else .ok (db, [], 0)
    let (db2, log2, u) ←
      if i.hunt_upgrades > 0 then
        sonarr_hunt_upgrades i.upgradesEnv i.name db1 ttl now i.hunt_upgrades.toNat
          i.monitored_only dryRun
      else .ok (db1, [], 0)
    .ok (db2, log1 ++ log2, m, u)

/-- The body of the Radarr instance loop of `run` (lines 516-542). -/
def runRadarrInst (dryRun : Bool) (ttl now : Int) (db : DB) (i : RadarrInst) :
    Except Unit (DB × List Nat × Nat × Nat) :=
  if !i.hasUrl || !i.hasApiKey then .ok (db, [], 0, 0)
  else if !i.connOk then .ok (db, [], 0, 0)
  else do
    let (db1, log1, m) ←
      if i.hunt_missing > 0 then
        radarr_hunt_missing i.missingEnv i.name db ttl now i.hunt_missing.toNat
          i.monitored_only i.skip_future dryRun
      else .ok (db, [], 0)
    let (db2, log2, u) ←
      if i.hunt_upgrades > 0 then
        radarr_hunt_upgrades i.upgradesEnv i.name db1 ttl now i.hunt_upgrades.toNat
          i.monitored_only dryRun
      else .ok (db1, [], 0)
    .ok (db2, log1 ++ log2, m, u)

/-- The Sonarr loop of `run`, accumulating the two counters with `+=`
as the Python `totals` dict does.  An uncaught hunt exception
propagates and aborts the whole loop. -/
def runSonarrList (dryRun : Bool) (ttl now : Int) :
    List SonarrInst → DB → Except Unit (DB × List Nat × Nat × Nat)
  | [], db => .ok (db, [], 0, 0)
  | i :: rest, db => do
    let (db1, log1, m, u) ← runSonarrInst dryRun ttl now db i
    let (db2, log2, ms, us) ← runSonarrList dryRun ttl now rest db1
    .ok (db2, log1 ++ log2, m + ms, u + us)

/-- The Radarr loop of `run`. -/
def runRadarrList (dryRun : Bool) (ttl now : Int) :
    List RadarrInst → DB → Except Unit (DB × List Nat × Nat × Nat)
  | [], db => .ok (db, [], 0, 0)
  | i :: rest, db => do
    let (db1, log1, m, u) ← runRadarrInst dryRun ttl now db i
    let (db2, log2, ms, us) ← runRadarrList dryRun ttl now rest db1
    .ok (db2, log1 ++ log2, m + ms, u + us)

/-- Instrumented variant of the Sonarr loop that records the
per-instance `(missing, upgrades)` counts instead of accumulating
them; used to relate the totals of `run` to per-instance sums. -/
def runSonarrTrace (dryRun : Bool) (ttl now : Int) :
    List SonarrInst → DB → Except Unit (DB × List (Nat × Nat))
  | [], db => .ok (db, [])
  | i :: rest, db => do
    let (db1, _, m, u) ← runSonarrInst dryRun ttl now db i
    let (db2, t) ← runSonarrTrace dryRun ttl now rest db1
    .ok (db2, (m, u) :: t)

/-- Instrumented variant of the Radarr loop. -/
def runRadarrTrace (dryRun : Bool) (ttl now : Int) :
    List RadarrInst → DB → Except Unit (DB × List (Nat × Nat))
  | [], db => .ok (db, [])
  | i :: rest, db => do
    let (db1, _, m, u) ← runRadarrInst dryRun ttl now db i
    let (db2, t) ← runRadarrTrace dryRun ttl now rest db1
    .ok (db2, (m, u) :: t)

/-- Models `run`: one full cycle.  Purge expired ledger rows, process every
Sonarr instance, then every Radarr instance, and return the final
ledger, the full trigger log and the `totals` dict. -/
def run (cfg : Config) (db0 : DB) (now : Int) (dryRun : Bool) :
    Except Unit (DB × List Nat × Totals) := do
  let db := (purge_expired db0 cfg.ttlHours now).1
  let (db1, logS, sm, su) ← runSonarrList dryRun cfg.ttlHours now cfg.sonarr db
  let (db2, logR, rm, ru) ← runRadarrList dryRun cfg.ttlHours now cfg.radarr db1
  .ok (db2, logS ++ logR, ⟨sm, su, rm, ru⟩)

/-- A transport or protocol failure during one of the two
candidate-source GETs of a hunt: either the count query raises, or the
count succeeds with a non-zero total (so the hunt proceeds to the page
fetch) and the page query raises. -/
def sourceQueryFails (env : HuntEnv α) : Prop :=
  env.countFails = true
  ∨ (env.totalRecords ≠ 0 ∧ env.pageFails = true)

/-! ## Ledger lemmas -/

/-- After `mark_searched`, `is_searched` for the same key reduces to the
single timestamp comparison on the freshly written row: the upsert
replaced any other row with this key. -/
theorem is_searched_mark_searched (db : DB) (ttl T Tq : Int) (app inst mid : String) :
    is_searched (mark_searched db T app inst mid) ttl Tq app inst mid
      = decide (Tq - ttl < T) := by
  have hrest : (db.filter (fun e => !keyMatches e app inst mid)).any
      (fun e => keyMatches e app inst mid && decide (Tq - ttl < e.searchedAt)) = false := by
    rw [List.any_eq_false]
    intro e he hp
    rw [List.mem_filter] at he
    rw [Bool.and_eq_true] at hp
    obtain ⟨-, hne⟩ := he
    rw [Bool.not_eq_true'] at hne
    rw [hne] at hp
    exact Bool.noConfusion hp.1
  have hk : keyMatches ⟨app, inst, mid, T⟩ app inst mid = true := by
    simp [keyMatches]
  simp only [is_searched, mark_searched, List.any_cons, hrest, Bool.or_false, hk,
    Bool.true_and]

/-- C1: a key marked searched at time `T` is reported as recently
searched at every query time `T'` with `T ≤ T' < T + ttlHours`, and not
reported at any `T' ≥ T + ttlHours`. -/
theorem C1_ttl_window (db : DB) (ttl T Tq : Int) (app inst mid : String)
    (hle : T ≤ Tq) :
    (Tq < T + ttl →
      is_searched (mark_searched db T app inst mid) ttl Tq app inst mid = true)
    ∧ (T + ttl ≤ Tq →
      is_searched (mark_searched db T app inst mid) ttl Tq app inst mid = false) := by
  constructor
  · intro h
    rw [is_searched_mark_searched]
    simp only [decide_eq_true_eq]
    omega
  · intro h
    rw [is_searched_mark_searched]
    simp only [decide_eq_false_iff_not]
    omega

/-- Witness for C1 at ttl = 2, mark time 0, query times 1 and 2. -/
theorem C1_ttl_window_witness :
    ((0 : Int) ≤ 1 ∧
      is_searched (mark_searched [] 0 "sonarr" "A" "7") 2 1 "sonarr" "A" "7" = true)
    ∧ ((0 : Int) ≤ 2 ∧
      is_searched (mark_searched [] 0 "sonarr" "A" "7") 2 2 "sonarr" "A" "7" = false) :=
  ⟨⟨by decide, (C1_ttl_window [] 2 0 1 "sonarr" "A" "7" (by decide)).1 (by decide)⟩,
   ⟨by decide, (C1_ttl_window [] 2 0 2 "sonarr" "A" "7" (by decide)).2 (by decide)⟩⟩

/-- C9: `purge_expired` deletes exactly the rows with
`searched_at <= now - ttl`, reports the number removed, and does not
change any `is_searched` answer evaluated at the same `now`. -/
theorem C9_purge_is_optimization (db : DB) (ttl now : Int) (app inst mid : String) :
    (purge_expired db ttl now).1
      = db.filter (fun e => !decide (e.searchedAt ≤ now - ttl))
    ∧ (purge_expired db ttl now).2
      = (db.filter (fun e => decide (e.searchedAt ≤ now - ttl))).length
    ∧ is_searched (purge_expired db ttl now).1 ttl now app inst mid
      = is_searched db ttl now app inst mid := by
  refine ⟨?_, rfl, ?_⟩
  · apply List.filter_congr
    intro e _
    rw [Bool.eq_iff_iff]
    simp only [decide_eq_true_eq, Bool.not_eq_true', decide_eq_false_iff_not]
    omega
  · rw [Bool.eq_iff_iff]
    simp only [is_searched, purge_expired, List.any_eq_true, List.mem_filter]
    constructor
    · rintro ⟨e, ⟨he, -⟩, hq⟩
      exact ⟨e, he, hq⟩
    · rintro ⟨e, he, hq⟩
      refine ⟨e, ⟨he, ?_⟩, hq⟩
      rw [Bool.and_eq_true] at hq
      exact hq.2

/-! ## Sampler lemmas -/

theorem eraseIdx_map (f : α → β) : ∀ (xs : List α) (i : Nat),
    (xs.map f).eraseIdx i = (xs.eraseIdx i).map f
  | [], _ => rfl
  | _ :: _, 0 => rfl
  | x :: xt, i + 1 => by
    simp only [List.map_cons, List.eraseIdx_cons_succ, eraseIdx_map f xt i]

/-- Removing the element at index `i` and putting it back in front is a
permutation of the original list. -/
theorem perm_get_cons_eraseIdx : ∀ (xs : List α) (i : Fin xs.length),
    List.Perm xs (xs.get i :: xs.eraseIdx i)
  | x :: xt, ⟨0, _⟩ => by simp
  | x :: xt, ⟨i + 1, h⟩ => by
    have ih := perm_get_cons_eraseIdx xt ⟨i, Nat.lt_of_succ_lt_succ h⟩
    simp only [List.eraseIdx_cons_succ, List.get_cons_succ]
    exact ((ih.cons x).trans (List.Perm.swap _ _ _))

/-- Lemma: `sample` returns exactly `min k (length xs)` elements. -/
theorem sample_length : ∀ (k : Nat) (rs : List Nat) (xs : List α),
    (sample rs xs k).length = min k xs.length
  | 0, rs, xs => by cases xs <;> simp [sample]
  | k + 1, rs, [] => by simp [sample]
  | k + 1, rs, x :: xt => by
    have e2 : sample rs (x :: xt) (k + 1)
        = (x :: xt).get ⟨rs.headD 0 % (x :: xt).length, Nat.mod_lt _ (by simp)⟩ ::
          sample rs.tail ((x :: xt).eraseIdx (rs.headD 0 % (x :: xt).length)) k := rfl
    rw [e2, List.length_cons, sample_length k,
      List.length_eraseIdx_of_lt (Nat.mod_lt _ (by simp))]
    simp only [List.length_cons]
    omega

/-- Lemma: `sample` draws without replacement: the result is a permutation of
a sublist of the input. -/
theorem sample_subperm : ∀ (k : Nat) (rs : List Nat) (xs : List α),
    List.Subperm (sample rs xs k) xs
  | 0, rs, xs => by cases xs <;> exact List.nil_subperm
  | k + 1, rs, [] => List.nil_subperm
  | k + 1, rs, x :: xt => by
    have ih := sample_subperm k rs.tail
      ((x :: xt).eraseIdx (rs.headD 0 % (x :: xt).length))
    have hperm := perm_get_cons_eraseIdx (x :: xt)
      ⟨rs.headD 0 % (x :: xt).length, Nat.mod_lt _ (by simp)⟩
    have e2 : sample rs (x :: xt) (k + 1)
        = (x :: xt).get ⟨rs.headD 0 % (x :: xt).length, Nat.mod_lt _ (by simp)⟩ ::
          sample rs.tail ((x :: xt).eraseIdx (rs.headD 0 % (x :: xt).length)) k := rfl
    rw [e2]
    exact ((List.subperm_cons _).mpr ih).trans hperm.symm.subperm

/-- Drawing without replacement preserves freedom from duplicates. -/
theorem sample_nodup (k : Nat) (rs : List Nat) (xs : List α) (h : xs.Nodup) :
    (sample rs xs k).Nodup := by
  obtain ⟨l, hl, hsub⟩ := sample_subperm k rs xs
  exact hl.nodup_iff.mp (hsub.nodup h)

/-- Lemma: `sample` commutes with mapping a function over the input list. -/
theorem sample_map (f : α → β) : ∀ (k : Nat) (rs : List Nat) (xs : List α),
    sample rs (xs.map f) k = (sample rs xs k).map f
  | 0, rs, xs => by cases xs <;> rfl
  | k + 1, rs, [] => rfl
  | k + 1, rs, x :: xt => by
    have hi : rs.headD 0 % ((x :: xt).map f).length = rs.headD 0 % (x :: xt).length := by
      simp
    have e1 : sample rs ((x :: xt).map f) (k + 1)
        = ((x :: xt).map f).get
            ⟨rs.headD 0 % ((x :: xt).map f).length, Nat.mod_lt _ (by simp)⟩ ::
          sample rs.tail
            (((x :: xt).map f).eraseIdx (rs.headD 0 % ((x :: xt).map f).length)) k := rfl
    have e2 : sample rs (x :: xt) (k + 1)
        = (x :: xt).get ⟨rs.headD 0 % (x :: xt).length, Nat.mod_lt _ (by simp)⟩ ::
          sample rs.tail ((x :: xt).eraseIdx (rs.headD 0 % (x :: xt).length)) k := rfl
    rw [e1, e2]
    conv_rhs => rw [List.map_cons]
    congr 1
    · simp only [hi, List.get_eq_getElem, List.getElem_map]
    · rw [eraseIdx_map, hi,
        sample_map f k rs.tail ((x :: xt).eraseIdx (rs.headD 0 % (x :: xt).length))]

/-- C4: for every filtered candidate list and limit, the selection step
of the hunts (`random.sample(candidates, min(limit, len(candidates)))`)
returns exactly `min L N` items, drawn without replacement from the
candidate list: all draws are distinct positions, every returned item
is a member of the list, and the result is duplicate-free whenever the
candidate list is. -/
theorem C4_bounded_selection (rs : List Nat) (xs : List α) (L : Nat) :
    (sample rs xs (min L xs.length)).length = min L xs.length
    ∧ List.Subperm (sample rs xs (min L xs.length)) xs
    ∧ (∀ x ∈ sample rs xs (min L xs.length), x ∈ xs)
    ∧ (xs.Nodup → (sample rs xs (min L xs.length)).Nodup) := by
  refine ⟨?_, sample_subperm _ _ _, ?_, sample_nodup _ _ _⟩
  · rw [sample_length]
    omega
  · intro x hx
    exact (sample_subperm (min L xs.length) rs xs).subset hx

/-- Witness for C4 on a concrete candidate list of 3 ids and limit 2. -/
theorem C4_bounded_selection_witness :
    (sample [1] [10, 20, 30] (min 2 3)).length = min 2 3
    ∧ List.Subperm (sample [1] [10, 20, 30] (min 2 3)) [10, 20, 30]
    ∧ (∀ x ∈ sample [1] [10, 20, 30] (min 2 3), x ∈ [10, 20, 30])
    ∧ (sample [1] [10, 20, 30] (min 2 3)).Nodup := by
  have h := C4_bounded_selection [1] ([10, 20, 30] : List Nat) 2
  exact ⟨h.1, h.2.1, h.2.2.1, h.2.2.2 (by decide)⟩

/-! ## Filter ordering -/

/-- Three `List.filter` passes give the same result in every order. -/
theorem filter3_all_orders (p q r : α → Bool) (xs : List α) :
    ((xs.filter p).filter q).filter r = ((xs.filter q).filter p).filter r
    ∧ ((xs.filter p).filter q).filter r = ((xs.filter p).filter r).filter q
    ∧ ((xs.filter p).filter q).filter r = ((xs.filter r).filter q).filter p
    ∧ ((xs.filter p).filter q).filter r = ((xs.filter q).filter r).filter p
    ∧ ((xs.filter p).filter q).filter r = ((xs.filter r).filter p).filter q := by
  refine ⟨?_, ?_, ?_, ?_, ?_⟩ <;>
  · simp only [List.filter_filter]
    apply List.filter_congr
    intro a _
    cases p a <;> cases q a <;> cases r a <;> rfl

/-- C8: for a fixed fetched page, ledger state and `now`, the
monitored, future and ledger filters are pure per-item predicates;
applying them in any of the six orders yields the same candidate list,
and the order used by `sonarr_hunt_missing` is the canonical one.
(The movie pipeline of `radarr_hunt_missing` is covered by the same
generic fact, `filter3_all_orders`, at its three predicates.) -/
theorem C8_filter_order_independence (db : DB) (ttl now : Int) (inst : String)
    (page : List Episode) :
    (((page.filter epMonitoredKeep).filter (epFutureKeep now)).filter
        (fun ep => !is_searched db ttl now "sonarr" inst (toString ep.id))
      = ((page.filter (epFutureKeep now)).filter epMonitoredKeep).filter
        (fun ep => !is_searched db ttl now "sonarr" inst (toString ep.id))
    ∧ ((page.filter epMonitoredKeep).filter (epFutureKeep now)).filter
        (fun ep => !is_searched db ttl now "sonarr" inst (toString ep.id))
      = ((page.filter epMonitoredKeep).filter
          (fun ep => !is_searched db ttl now "sonarr" inst (toString ep.id))).filter
        (epFutureKeep now)
    ∧ ((page.filter epMonitoredKeep).filter (epFutureKeep now)).filter
        (fun ep => !is_searched db ttl now "sonarr" inst (toString ep.id))
      = ((page.filter
            (fun ep => !is_searched db ttl now "sonarr" inst (toString ep.id))).filter
          (epFutureKeep now)).filter epMonitoredKeep
    ∧ ((page.filter epMonitoredKeep).filter (epFutureKeep now)).filter
        (fun ep => !is_searched db ttl now "sonarr" inst (toString ep.id))
      = ((page.filter (epFutureKeep now)).filter
          (fun ep => !is_searched db ttl now "sonarr" inst (toString ep.id))).filter
        epMonitoredKeep
    ∧ ((page.filter epMonitoredKeep).filter (epFutureKeep now)).filter
        (fun ep => !is_searched db ttl now "sonarr" inst (toString ep.id))
      = ((page.filter
            (fun ep => !is_searched db ttl now "sonarr" inst (toString ep.id))).filter
          epMonitoredKeep).filter (epFutureKeep now))
    ∧ sonarrMissingCandidates page db ttl now inst true true
      = ((page.filter epMonitoredKeep).filter (epFutureKeep now)).filter
        (fun ep => !is_searched db ttl now "sonarr" inst (toString ep.id)) :=
  ⟨filter3_all_orders _ _ _ _, rfl⟩

/-! ## Page-selection arithmetic -/

/-- C5: `pageSize = min(100, total)`; `totalPages` is the ceiling of
`total / pageSize` (characterized by `total ≤ totalPages * pageSize`
and `(totalPages - 1) * pageSize < total`) and is at least 1; the
chosen page always lies in `[1, totalPages]`; `total = 250` gives
`(100, 3)` and `total = 1` gives `(1, 1)`; and `total = 0` makes the
missing hunts return 0 searched items without fetching a page (the
result does not depend on `pageFails`). -/
theorem C5_page_selection (total r : Nat) (h : 0 < total) :
    (pageMath total).1 = min 100 total
    ∧ 1 ≤ (pageMath total).2
    ∧ total ≤ (pageMath total).2 * (pageMath total).1
    ∧ ((pageMath total).2 - 1) * (pageMath total).1 < total
    ∧ 1 ≤ choosePage r (pageMath total).2
    ∧ choosePage r (pageMath total).2 ≤ (pageMath total).2
    ∧ pageMath 250 = (100, 3)
    ∧ pageMath 1 = (1, 1)
    ∧ (∀ (env : HuntEnv Episode) inst db ttl now limit mo sf dry,
        env.countFails = false → env.totalRecords = 0 →
        sonarr_hunt_missing env inst db ttl now limit mo sf dry = .ok (db, [], 0))
    ∧ (∀ (env : HuntEnv Movie) inst db ttl now limit mo sf dry,
        env.countFails = false → env.totalRecords = 0 →
        radarr_hunt_missing env inst db ttl now limit mo sf dry = .ok (db, [], 0)) := by
  have hpsp : 0 < min 100 total := by omega
  have hq1 : 1 ≤ (total + min 100 total - 1) / min 100 total := by
    rw [Nat.le_div_iff_mul_le hpsp]
    omega
  have hq : (pageMath total).2 = (total + min 100 total - 1) / min 100 total := by
    simp only [pageMath]
    omega
  have hdm := Nat.div_add_mod (total + min 100 total - 1) (min 100 total)
  have hm : (total + min 100 total - 1) % min 100 total < min 100 total :=
    Nat.mod_lt _ hpsp
  have hcomm : (total + min 100 total - 1) / min 100 total * min 100 total
      = min 100 total * ((total + min 100 total - 1) / min 100 total) :=
    Nat.mul_comm _ _
  have hsub : ((total + min 100 total - 1) / min 100 total - 1) * min 100 total
      = (total + min 100 total - 1) / min 100 total * min 100 total - min 100 total :=
    Nat.sub_one_mul _ _
  have htp : 0 < (pageMath total).2 := by
    rw [hq]; omega
  refine ⟨rfl, by omega, ?_, ?_, ?_, ?_, rfl, rfl, ?_, ?_⟩
  · show total ≤ (pageMath total).2 * (pageMath total).1
    rw [hq]
    show total ≤ _ / _ * min 100 total
    omega
  · rw [hq]
    show (_ / _ - 1) * min 100 total < total
    omega
  · simp [choosePage]
  · have := Nat.mod_lt r htp
    simp only [choosePage]
    omega
  · intro env inst db ttl now limit mo sf dry hc ht
    simp [sonarr_hunt_missing, hc, ht]
  · intro env inst db ttl now limit mo sf dry hc ht
    simp [radarr_hunt_missing, hc, ht]

/-- Witness for C5 at `total = 250`, random draw 7, and a concrete
zero-total environment. -/
theorem C5_page_selection_witness :
    0 < 250
    ∧ pageMath 250 = (100, 3)
    ∧ 1 ≤ choosePage 7 (pageMath 250).2
    ∧ choosePage 7 (pageMath 250).2 ≤ (pageMath 250).2
    ∧ sonarr_hunt_missing ⟨false, 0, true, [], 0, [], fun _ => true⟩ "A" [] 1 0 5
        true true false = .ok ([], [], 0) := by
  have h := C5_page_selection 250 7 (by decide)
  exact ⟨by decide, h.2.2.2.2.2.2.1, h.2.2.2.2.1, h.2.2.2.2.2.1,
    h.2.2.2.2.2.2.2.2.1 ⟨false, 0, true, [], 0, [], fun _ => true⟩ "A" [] 1 0 5
      true true false rfl rfl⟩

/-! ## The trigger loop -/

/-- The non-dry item loop in closed form: all ids are attempted in
order, the ledger receives the marks of exactly the successful ids,
and the count is the number of successes. -/
theorem processItems_run_eq (ok : Nat → Bool) (app inst : String)
    (now : Int) (db : DB) (items : List Nat) :
    processItems false ok app inst now db items
      = ((items.filter ok).foldl
           (fun d i => mark_searched d now app inst (toString i)) db,
         items, (items.filter ok).length) := by
  induction items generalizing db with
  | nil => rfl
  | cons i rest ih =>
    by_cases h : ok i = true
    · simp [processItems, h, ih, List.filter_cons, List.foldl_cons]
    · rw [Bool.not_eq_true] at h
      simp [processItems, h, ih, List.filter_cons]

/-- C6: in a non-dry batch every selected id gets a trigger POST, in
order (a failing trigger does not stop the loop), the ledger receives
a `mark_searched` write exactly for the ids whose trigger succeeded,
and the searched count is the number of successful trigger-plus-mark
operations. -/
theorem C6_trigger_before_mark (ok : Nat → Bool) (app inst : String)
    (now : Int) (db : DB) (items : List Nat) :
    processItems false ok app inst now db items
      = ((items.filter ok).foldl
           (fun d i => mark_searched d now app inst (toString i)) db,
         items, (items.filter ok).length) :=
  processItems_run_eq ok app inst now db items

/-! ## The future-date filter -/

/-- Predicates that only read id/monitored fields are blind to a
date-only rewrite of each episode. -/
theorem filter_map_of_pred_comm (g : α → α) (P : α → Bool)
    (hgP : ∀ a, P (g a) = P a) (xs : List α) :
    (xs.map g).filter P = (xs.filter P).map g := by
  rw [List.filter_map]
  congr 1
  apply List.filter_congr
  intro a _
  exact hgP a

theorem isEmpty_map (g : α → β) (l : List α) : (l.map g).isEmpty = l.isEmpty := by
  cases l <;> rfl

/-- The upgrade candidate pipeline of Sonarr only reads the id and the
two monitored flags: it commutes with any per-episode rewrite `g` that
preserves them. -/
theorem sonarrUpgradeCandidates_map (g : Episode → Episode)
    (hg : ∀ ep, (g ep).id = ep.id ∧ (g ep).monitored = ep.monitored
      ∧ (g ep).seriesMonitored = ep.seriesMonitored)
    (page : List Episode) (db : DB) (ttl now : Int) (inst : String) (mo : Bool) :
    sonarrUpgradeCandidates (page.map g) db ttl now inst mo
      = (sonarrUpgradeCandidates page db ttl now inst mo).map g := by
  have hmong : ∀ ep, epMonitoredKeep (g ep) = epMonitoredKeep ep := by
    intro ep
    simp [epMonitoredKeep, (hg ep).2.1, (hg ep).2.2]
  have hledg : ∀ ep,
      (!is_searched db ttl now "sonarr_upgrade" inst (toString (g ep).id))
        = !is_searched db ttl now "sonarr_upgrade" inst (toString ep.id) := by
    intro ep
    rw [(hg ep).1]
  unfold sonarrUpgradeCandidates
  cases mo with
  | false =>
    rw [if_neg (by simp), if_neg (by simp)]
    exact filter_map_of_pred_comm g _ hledg page
  | true =>
    rw [if_pos rfl, if_pos rfl,
      filter_map_of_pred_comm g epMonitoredKeep hmong page,
      filter_map_of_pred_comm g _ hledg (page.filter epMonitoredKeep)]

/-- Same statement for the Radarr upgrade candidate pipeline. -/
theorem radarrUpgradeCandidates_map (g : Movie → Movie)
    (hg : ∀ m, (g m).id = m.id ∧ (g m).monitored = m.monitored)
    (page : List Movie) (db : DB) (ttl now : Int) (inst : String) (mo : Bool) :
    radarrUpgradeCandidates (page.map g) db ttl now inst mo
      = (radarrUpgradeCandidates page db ttl now inst mo).map g := by
  have hmong : ∀ m : Movie, (g m).monitored = m.monitored := fun m => (hg m).2
  have hledg : ∀ m,
      (!is_searched db ttl now "radarr_upgrade" inst (toString (g m).id))
        = !is_searched db ttl now "radarr_upgrade" inst (toString m.id) := by
    intro m
    rw [(hg m).1]
  unfold radarrUpgradeCandidates
  cases mo with
  | false =>
    rw [if_neg (by simp), if_neg (by simp)]
    exact filter_map_of_pred_comm g _ hledg page
  | true =>
    rw [if_pos rfl, if_pos rfl,
      filter_map_of_pred_comm g _ hmong page,
      filter_map_of_pred_comm g _ hledg (page.filter (fun m => m.monitored))]

/-- The hunt `sonarr_hunt_upgrades` is blind to the episode dates: rewriting
every episode of the fetched page with any id- and monitored-preserving
function leaves the whole hunt result unchanged. -/
theorem sonarr_hunt_upgrades_date_blind (g : Episode → Episode)
    (hg : ∀ ep, (g ep).id = ep.id ∧ (g ep).monitored = ep.monitored
      ∧ (g ep).seriesMonitored = ep.seriesMonitored)
    (env : HuntEnv Episode) (inst : String) (db : DB) (ttl now : Int)
    (limit : Nat) (mo dry : Bool) :
    sonarr_hunt_upgrades { env with pageRecords := env.pageRecords.map g }
      inst db ttl now limit mo dry
      = sonarr_hunt_upgrades env inst db ttl now limit mo dry := by
  by_cases hcf : env.countFails
  · simp [sonarr_hunt_upgrades, hcf]
  · by_cases htr : env.totalRecords = 0
    · simp [sonarr_hunt_upgrades, hcf, htr]
    · by_cases hpf : env.pageFails
      · simp [sonarr_hunt_upgrades, hcf, htr, hpf]
      · simp only [sonarr_hunt_upgrades, hcf, htr, hpf, Bool.false_eq_true,
          if_false, ite_false]
        rw [sonarrUpgradeCandidates_map g hg, isEmpty_map, List.length_map,
          sample_map, List.map_map]
        have hmapid : List.map ((fun x : Episode => x.id) ∘ g)
            (sample env.rSample (sonarrUpgradeCandidates env.pageRecords db ttl now inst mo)
              (min limit (sonarrUpgradeCandidates env.pageRecords db ttl now inst mo).length))
          = List.map (fun x : Episode => x.id)
            (sample env.rSample (sonarrUpgradeCandidates env.pageRecords db ttl now inst mo)
              (min limit (sonarrUpgradeCandidates env.pageRecords db ttl now inst mo).length)) :=
          List.map_congr_left (fun ep _ => (hg ep).1)
        rw [hmapid]

/-- The hunt `radarr_hunt_upgrades` is likewise blind to all three movie date
fields. -/
theorem radarr_hunt_upgrades_date_blind (g : Movie → Movie)
    (hg : ∀ m, (g m).id = m.id ∧ (g m).monitored = m.monitored)
    (env : HuntEnv Movie) (inst : String) (db : DB) (ttl now : Int)
    (limit : Nat) (mo dry : Bool) :
    radarr_hunt_upgrades { env with pageRecords := env.pageRecords.map g }
      inst db ttl now limit mo dry
      = radarr_hunt_upgrades env inst db ttl now limit mo dry := by
  by_cases hcf : env.countFails
  · simp [radarr_hunt_upgrades, hcf]
  · by_cases htr : env.totalRecords = 0
    · simp [radarr_hunt_upgrades, hcf, htr]
    · by_cases hpf : env.pageFails
      · simp [radarr_hunt_upgrades, hcf, htr, hpf]
      · simp only [radarr_hunt_upgrades, hcf, htr, hpf, Bool.false_eq_true,
          if_false, ite_false]
        rw [radarrUpgradeCandidates_map g hg, isEmpty_map, List.length_map,
          sample_map, List.map_map]
        have hmapid : List.map ((fun x : Movie => x.id) ∘ g)
            (sample env.rSample (radarrUpgradeCandidates env.pageRecords db ttl now inst mo)
              (min limit (radarrUpgradeCandidates env.pageRecords db ttl now inst mo).length))
          = List.map (fun x : Movie => x.id)
            (sample env.rSample (radarrUpgradeCandidates env.pageRecords db ttl now inst mo)
              (min limit (radarrUpgradeCandidates env.pageRecords db ttl now inst mo).length)) :=
          List.map_congr_left (fun m _ => (hg m).1)
        rw [hmapid]

/-- C7: the future-date filter semantics.  In the missing hunts an item
is dropped iff its relevant date (air date for episodes; first
non-null of release/digital/physical for movies) is present, parseable
and strictly after `now`; items with a missing or unparseable date are
kept.  The upgrade hunts never consult the dates: their full results
are invariant under arbitrary rewrites of the date fields. -/
theorem C7_future_filter_only_missing (now : Int) :
    (∀ ep : Episode, epFutureKeep now ep = false
      ↔ ∃ d, episodeDate ep = some d ∧ now < d)
    ∧ (∀ m : Movie, movieFutureKeep now m = false
      ↔ ∃ d, movieDate m = some d ∧ now < d)
    ∧ (∀ ep : Episode, episodeDate ep = none → epFutureKeep now ep = true)
    ∧ (∀ m : Movie, movieDate m = none → movieFutureKeep now m = true)
    ∧ (∀ g : Episode → Episode,
        (∀ ep, (g ep).id = ep.id ∧ (g ep).monitored = ep.monitored
          ∧ (g ep).seriesMonitored = ep.seriesMonitored) →
        ∀ env inst db ttl limit mo dry,
          sonarr_hunt_upgrades { env with pageRecords := env.pageRecords.map g }
            inst db ttl now limit mo dry
            = sonarr_hunt_upgrades env inst db ttl now limit mo dry)
    ∧ (∀ g : Movie → Movie,
        (∀ m, (g m).id = m.id ∧ (g m).monitored = m.monitored) →
        ∀ env inst db ttl limit mo dry,
          radarr_hunt_upgrades { env with pageRecords := env.pageRecords.map g }
            inst db ttl now limit mo dry
            = radarr_hunt_upgrades env inst db ttl now limit mo dry) := by
  refine ⟨?_, ?_, ?_, ?_, ?_, ?_⟩
  · intro ep
    cases h : episodeDate ep with
    | none => simp [epFutureKeep, h]
    | some d => simp [epFutureKeep, h, Int.not_le]
  · intro m
    cases h : movieDate m with
    | none => simp [movieFutureKeep, h]
    | some d => simp [movieFutureKeep, h, Int.not_le]
  · intro ep h
    simp [epFutureKeep, h]
  · intro m h
    simp [movieFutureKeep, h]
  · intro g hg env inst db ttl limit mo dry
    exact sonarr_hunt_upgrades_date_blind g hg env inst db ttl now limit mo dry
  · intro g hg env inst db ttl limit mo dry
    exact radarr_hunt_upgrades_date_blind g hg env inst db ttl now limit mo dry

/-- Witness for C7: a concrete future episode is dropped, and a
concrete date rewrite leaves a concrete upgrade hunt unchanged. -/
theorem C7_future_filter_only_missing_witness :
    epFutureKeep 0 ⟨1, true, true, some (some 5)⟩ = false
    ∧ sonarr_hunt_upgrades
        { countFails := false, totalRecords := 1, pageFails := false,
          pageRecords := [(⟨1, true, true, some (some 5)⟩ : Episode)].map
            (fun ep => ({ ep with airDateUtc := none } : Episode)),
          rPage := 0, rSample := [], triggerOk := fun _ => true }
        "A" [] 1 0 5 true false
      = sonarr_hunt_upgrades
        { countFails := false, totalRecords := 1, pageFails := false,
          pageRecords := [⟨1, true, true, some (some 5)⟩],
          rPage := 0, rSample := [], triggerOk := fun _ => true }
        "A" [] 1 0 5 true false := by
  have h := C7_future_filter_only_missing 0
  refine ⟨(h.1 _).mpr ⟨5, rfl, by decide⟩, ?_⟩
  exact h.2.2.2.2.1 (fun ep => ({ ep with airDateUtc := none } : Episode))
    (fun ep => ⟨rfl, rfl, rfl⟩)
    ⟨false, 1, false, [⟨1, true, true, some (some 5)⟩], 0, [], fun _ => true⟩
    "A" [] 1 5 true false

/-! ## Except-monad plumbing -/

theorem except_bind_ok (v : α) (f : α → Except ε β) :
    (Except.ok v >>= f) = f v := rfl

theorem except_bind_error (e : ε) (f : α → Except ε β) :
    ((Except.error e : Except ε α) >>= f) = Except.error e := rfl

/-! ## Dry-run behaviour -/

/-- In dry-run mode the item loop writes nothing, triggers nothing and
counts nothing. -/
theorem processItems_dry (ok : Nat → Bool) (app inst : String) (now : Int)
    (db : DB) (items : List Nat) :
    processItems true ok app inst now db items = (db, [], 0) := by
  induction items with
  | nil => rfl
  | cons i rest ih => simp [processItems, ih]

theorem sonarr_hunt_missing_dry (env : HuntEnv Episode) (inst : String) (db : DB)
    (ttl now : Int) (limit : Nat) (mo sf : Bool) :
    sonarr_hunt_missing env inst db ttl now limit mo sf true = .ok (db, [], 0)
    ∨ sonarr_hunt_missing env inst db ttl now limit mo sf true = .error () := by
  unfold sonarr_hunt_missing
  split_ifs <;> simp [processItems_dry]

theorem sonarr_hunt_upgrades_dry (env : HuntEnv Episode) (inst : String) (db : DB)
    (ttl now : Int) (limit : Nat) (mo : Bool) :
    sonarr_hunt_upgrades env inst db ttl now limit mo true = .ok (db, [], 0)
    ∨ sonarr_hunt_upgrades env inst db ttl now limit mo true = .error () := by
  unfold sonarr_hunt_upgrades
  split_ifs <;> simp [processItems_dry]

theorem radarr_hunt_missing_dry (env : HuntEnv Movie) (inst : String) (db : DB)
    (ttl now : Int) (limit : Nat) (mo sf : Bool) :
    radarr_hunt_missing env inst db ttl now limit mo sf true = .ok (db, [], 0)
    ∨ radarr_hunt_missing env inst db ttl now limit mo sf true = .error () := by
  unfold radarr_hunt_missing
  split_ifs <;> simp [processItems_dry]

theorem radarr_hunt_upgrades_dry (env : HuntEnv Movie) (inst : String) (db : DB)
    (ttl now : Int) (limit : Nat) (mo : Bool) :
    radarr_hunt_upgrades env inst db ttl now limit mo true = .ok (db, [], 0)
    ∨ radarr_hunt_upgrades env inst db ttl now limit mo true = .error () := by
  unfold radarr_hunt_upgrades
  split_ifs <;> simp [processItems_dry]

theorem runSonarrInst_dry (ttl now : Int) (db : DB) (i : SonarrInst) :
    runSonarrInst true ttl now db i = .ok (db, [], 0, 0)
    ∨ runSonarrInst true ttl now db i = .error () := by
  unfold runSonarrInst
  by_cases h1 : (!i.hasUrl || !i.hasApiKey) = true
  · simp [h1]
  · by_cases h2 : (!i.connOk) = true
    · simp [h1, h2]
    · by_cases hm : i.hunt_missing > 0
      · rcases sonarr_hunt_missing_dry i.missingEnv i.name db ttl now
          i.hunt_missing.toNat i.monitored_only i.skip_future with h | h
        · by_cases hu : i.hunt_upgrades > 0
          · rcases sonarr_hunt_upgrades_dry i.upgradesEnv i.name db ttl now
              i.hunt_upgrades.toNat i.monitored_only with h3 | h3
            · left
              simp [h1, h2, hm, hu, h, h3, except_bind_ok]
            · right
              simp [h1, h2, hm, hu, h, h3, except_bind_ok, except_bind_error]
          · left
            simp [h1, h2, hm, hu, h, except_bind_ok]
        · right
          simp [h1, h2, hm, h, except_bind_error]
      · by_cases hu : i.hunt_upgrades > 0
        · rcases sonarr_hunt_upgrades_dry i.upgradesEnv i.name db ttl now
            i.hunt_upgrades.toNat i.monitored_only with h3 | h3
          · left
            simp [h1, h2, hm, hu, h3, except_bind_ok]
          · right
            simp [h1, h2, hm, hu, h3, except_bind_ok, except_bind_error]
        · left
          simp [h1, h2, hm, hu, except_bind_ok]

theorem runRadarrInst_dry (ttl now : Int) (db : DB) (i : RadarrInst) :
    runRadarrInst true ttl now db i = .ok (db, [], 0, 0)
    ∨ runRadarrInst true ttl now db i = .error () := by
  unfold runRadarrInst
  by_cases h1 : (!i.hasUrl || !i.hasApiKey) = true
  · simp [h1]
  · by_cases h2 : (!i.connOk) = true
    · simp [h1, h2]
    · by_cases hm : i.hunt_missing > 0
      · rcases radarr_hunt_missing_dry i.missingEnv i.name db ttl now
          i.hunt_missing.toNat i.monitored_only i.skip_future with h | h
        · by_cases hu : i.hunt_upgrades > 0
          · rcases radarr_hunt_upgrades_dry i.upgradesEnv i.name db ttl now
              i.hunt_upgrades.toNat i.monitored_only with h3 | h3
            · left
              simp [h1, h2, hm, hu, h, h3, except_bind_ok]
            · right
              simp [h1, h2, hm, hu, h, h3, except_bind_ok, except_bind_error]
          · left
            simp [h1, h2, hm, hu, h, except_bind_ok]
        · right
          simp [h1, h2, hm, h, except_bind_error]
      · by_cases hu : i.hunt_upgrades > 0
        · rcases radarr_hunt_upgrades_dry i.upgradesEnv i.name db ttl now
            i.hunt_upgrades.toNat i.monitored_only with h3 | h3
          · left
            simp [h1, h2, hm, hu, h3, except_bind_ok]
          · right
            simp [h1, h2, hm, hu, h3, except_bind_ok, except_bind_error]
        · left
          simp [h1, h2, hm, hu, except_bind_ok]

theorem runSonarrList_dry (ttl now : Int) : ∀ (l : List SonarrInst) (db : DB),
    runSonarrList true ttl now l db = .ok (db, [], 0, 0)
    ∨ runSonarrList true ttl now l db = .error ()
  | [], db => .inl rfl
  | i :: rest, db => by
    rcases runSonarrInst_dry ttl now db i with h | h
    · rcases runSonarrList_dry ttl now rest db with h2 | h2
      · left
        simp [runSonarrList, h, h2, except_bind_ok]
      · right
        simp [runSonarrList, h, h2, except_bind_ok, except_bind_error]
    · right
      simp [runSonarrList, h, except_bind_error]

theorem runRadarrList_dry (ttl now : Int) : ∀ (l : List RadarrInst) (db : DB),
    runRadarrList true ttl now l db = .ok (db, [], 0, 0)
    ∨ runRadarrList true ttl now l db = .error ()
  | [], db => .inl rfl
  | i :: rest, db => by
    rcases runRadarrInst_dry ttl now db i with h | h
    · rcases runRadarrList_dry ttl now rest db with h2 | h2
      · left
        simp [runRadarrList, h, h2, except_bind_ok]
      · right
        simp [runRadarrList, h, h2, except_bind_ok, except_bind_error]
    · right
      simp [runRadarrList, h, except_bind_error]

/-- C3 counterexample: the claim "a dry-run cycle performs zero ledger
mutations (no inserts, updates, or deletes) for every initial ledger
state" is false: `run` purges expired rows before checking anything,
dry-run included, so a cycle over a ledger holding an expired row
deletes it. -/
theorem C3_dry_run_counterexample :
    run ⟨1, [], []⟩ [⟨"sonarr", "A", "1", 0⟩] 10 true
      = .ok ([], [], ⟨0, 0, 0, 0⟩)
    ∧ ([⟨"sonarr", "A", "1", 0⟩] : DB) ≠ [] := by
  exact ⟨rfl, by decide⟩

/-- C3 (amended): a dry-run cycle issues no triggers, performs no
ledger inserts or updates, and returns all-zero totals; the only
ledger mutation is the initial TTL purge, so the final ledger is
exactly the purged initial ledger. -/
theorem C3_dry_run_no_writes (cfg : Config) (db0 : DB) (now : Int)
    (res : DB × List Nat × Totals)
    (h : run cfg db0 now true = .ok res) :
    res.1 = (purge_expired db0 cfg.ttlHours now).1
    ∧ res.2.1 = []
    ∧ res.2.2 = ⟨0, 0, 0, 0⟩ := by
  unfold run at h
  simp only [] at h
  rcases runSonarrList_dry cfg.ttlHours now cfg.sonarr
    (purge_expired db0 cfg.ttlHours now).1 with hs | hs
  · rw [hs, except_bind_ok] at h
    rcases runRadarrList_dry cfg.ttlHours now cfg.radarr
      (purge_expired db0 cfg.ttlHours now).1 with hr | hr
    · rw [hr, except_bind_ok] at h
      simp only [Except.ok.injEq] at h
      rw [← h]
      exact ⟨rfl, rfl, rfl⟩
    · rw [hr, except_bind_error] at h
      exact Except.noConfusion h
  · rw [hs, except_bind_error] at h
    exact Except.noConfusion h

/-- Witness for the amended C3 on a one-row expired ledger. -/
theorem C3_dry_run_no_writes_witness :
    (([] : DB), ([] : List Nat), (⟨0, 0, 0, 0⟩ : Totals)).1
      = (purge_expired [⟨"sonarr", "A", "1", 0⟩] (1 : Int) 10).1
    ∧ (([] : DB), ([] : List Nat), (⟨0, 0, 0, 0⟩ : Totals)).2.1 = []
    ∧ (([] : DB), ([] : List Nat), (⟨0, 0, 0, 0⟩ : Totals)).2.2 = ⟨0, 0, 0, 0⟩ := by
  have h := C3_dry_run_no_writes ⟨1, [], []⟩ [⟨"sonarr", "A", "1", 0⟩] 10
    ([], [], ⟨0, 0, 0, 0⟩) rfl
  exact h

/-! ## Source-failure handling -/

/-- C2 counterexample: with two configured Sonarr instances where the
first responds to the count GET with a failure, the whole cycle
aborts (`run` raises); the second instance is never processed, contrary
to the claim that the orchestrator catches source failures and
continues. -/
theorem C2_uncaught_failure_counterexample :
    run ⟨168,
      [⟨"A", true, true, true, 5, 0, true, true,
         ⟨true, 0, false, [], 0, [], fun _ => true⟩,
         ⟨false, 0, false, [], 0, [], fun _ => true⟩⟩,
       ⟨"B", true, true, true, 5, 0, true, true,
         ⟨false, 1, false, [⟨1, true, true, none⟩], 0, [0], fun _ => true⟩,
         ⟨false, 0, false, [], 0, [], fun _ => true⟩⟩],
      []⟩ [] 0 false = .error () := rfl

/-- Of every hunt, the count GET raising, or the count succeeding with
a non-zero total and the page GET raising, makes the hunt itself
raise. -/
theorem sonarr_hunt_missing_raises (env : HuntEnv Episode) (inst : String)
    (db : DB) (ttl now : Int) (limit : Nat) (mo sf dry : Bool)
    (h : sourceQueryFails env) :
    sonarr_hunt_missing env inst db ttl now limit mo sf dry = .error () := by
  unfold sonarr_hunt_missing
  by_cases hcf : env.countFails = true
  · rw [if_pos hcf]
  · rcases h with h | ⟨htr, hpf⟩
    · exact absurd h hcf
    · rw [if_neg hcf, if_neg htr, if_pos hpf]

theorem sonarr_hunt_upgrades_raises (env : HuntEnv Episode) (inst : String)
    (db : DB) (ttl now : Int) (limit : Nat) (mo dry : Bool)
    (h : sourceQueryFails env) :
    sonarr_hunt_upgrades env inst db ttl now limit mo dry = .error () := by
  unfold sonarr_hunt_upgrades
  by_cases hcf : env.countFails = true
  · rw [if_pos hcf]
  · rcases h with h | ⟨htr, hpf⟩
    · exact absurd h hcf
    · rw [if_neg hcf, if_neg htr, if_pos hpf]

theorem radarr_hunt_missing_raises (env : HuntEnv Movie) (inst : String)
    (db : DB) (ttl now : Int) (limit : Nat) (mo sf dry : Bool)
    (h : sourceQueryFails env) :
    radarr_hunt_missing env inst db ttl now limit mo sf dry = .error () := by
  unfold radarr_hunt_missing
  by_cases hcf : env.countFails = true
  · rw [if_pos hcf]
  · rcases h with h | ⟨htr, hpf⟩
    · exact absurd h hcf
    · rw [if_neg hcf, if_neg htr, if_pos hpf]

theorem radarr_hunt_upgrades_raises (env : HuntEnv Movie) (inst : String)
    (db : DB) (ttl now : Int) (limit : Nat) (mo dry : Bool)
    (h : sourceQueryFails env) :
    radarr_hunt_upgrades env inst db ttl now limit mo dry = .error () := by
  unfold radarr_hunt_upgrades
  by_cases hcf : env.countFails = true
  · rw [if_pos hcf]
  · rcases h with h | ⟨htr, hpf⟩
    · exact absurd h hcf
    · rw [if_neg hcf, if_neg htr, if_pos hpf]

/-- A reachable instance whose enabled missing hunt or enabled
upgrade hunt suffers a source-query failure makes the whole
per-instance body raise, for every incoming ledger state. -/
theorem runSonarrInst_raises (dry : Bool) (ttl now : Int) (i : SonarrInst)
    (hu : i.hasUrl = true) (hk : i.hasApiKey = true) (hc : i.connOk = true)
    (hf : (i.hunt_missing > 0 ∧ sourceQueryFails i.missingEnv)
        ∨ (i.hunt_upgrades > 0 ∧ sourceQueryFails i.upgradesEnv)) :
    ∀ db, runSonarrInst dry ttl now db i = .error () := by
  intro db
  rcases hf with ⟨hm, hqf⟩ | ⟨hup, hqf⟩
  · have h1 := sonarr_hunt_missing_raises i.missingEnv i.name db ttl now
      i.hunt_missing.toNat i.monitored_only i.skip_future dry hqf
    simp [runSonarrInst, hu, hk, hc, hm, h1, except_bind_error]
  · by_cases hm2 : i.hunt_missing > 0
    · cases hfirst : sonarr_hunt_missing i.missingEnv i.name db ttl now
          i.hunt_missing.toNat i.monitored_only i.skip_future dry with
      | error e =>
        cases e
        simp [runSonarrInst, hu, hk, hc, hm2, hfirst, except_bind_error]
      | ok v =>
        obtain ⟨db1, lg1, m⟩ := v
        have h2 := sonarr_hunt_upgrades_raises i.upgradesEnv i.name db1 ttl now
          i.hunt_upgrades.toNat i.monitored_only dry hqf
        simp [runSonarrInst, hu, hk, hc, hm2, hfirst, hup, h2, except_bind_ok,
          except_bind_error]
    · have h2 := sonarr_hunt_upgrades_raises i.upgradesEnv i.name db ttl now
        i.hunt_upgrades.toNat i.monitored_only dry hqf
      simp [runSonarrInst, hu, hk, hc, hm2, hup, h2, except_bind_ok,
        except_bind_error]

theorem runRadarrInst_raises (dry : Bool) (ttl now : Int) (i : RadarrInst)
    (hu : i.hasUrl = true) (hk : i.hasApiKey = true) (hc : i.connOk = true)
    (hf : (i.hunt_missing > 0 ∧ sourceQueryFails i.missingEnv)
        ∨ (i.hunt_upgrades > 0 ∧ sourceQueryFails i.upgradesEnv)) :
    ∀ db, runRadarrInst dry ttl now db i = .error () := by
  intro db
  rcases hf with ⟨hm, hqf⟩ | ⟨hup, hqf⟩
  · have h1 := radarr_hunt_missing_raises i.missingEnv i.name db ttl now
      i.hunt_missing.toNat i.monitored_only i.skip_future dry hqf
    simp [runRadarrInst, hu, hk, hc, hm, h1, except_bind_error]
  · by_cases hm2 : i.hunt_missing > 0
    · cases hfirst : radarr_hunt_missing i.missingEnv i.name db ttl now
          i.hunt_missing.toNat i.monitored_only i.skip_future dry with
      | error e =>
        cases e
        simp [runRadarrInst, hu, hk, hc, hm2, hfirst, except_bind_error]
      | ok v =>
        obtain ⟨db1, lg1, m⟩ := v
        have h2 := radarr_hunt_upgrades_raises i.upgradesEnv i.name db1 ttl now
          i.hunt_upgrades.toNat i.monitored_only dry hqf
        simp [runRadarrInst, hu, hk, hc, hm2, hfirst, hup, h2, except_bind_ok,
          except_bind_error]
    · have h2 := radarr_hunt_upgrades_raises i.upgradesEnv i.name db ttl now
        i.hunt_upgrades.toNat i.monitored_only dry hqf
      simp [runRadarrInst, hu, hk, hc, hm2, hup, h2, except_bind_ok,
        except_bind_error]

/-- An instance that raises for every ledger state makes the whole
instance loop raise, wherever it sits in the list: earlier instances
run, the raise then aborts, later instances are never reached. -/
theorem runSonarrList_mem_raises (dry : Bool) (ttl now : Int) (i : SonarrInst)
    (hi : ∀ db, runSonarrInst dry ttl now db i = .error ()) :
    ∀ (l : List SonarrInst), i ∈ l → ∀ db,
      runSonarrList dry ttl now l db = .error ()
  | [], h => absurd h (List.not_mem_nil i)
  | j :: rest, h => by
    intro db
    rcases List.mem_cons.mp h with rfl | hmem
    · simp [runSonarrList, hi db, except_bind_error]
    · cases hinst : runSonarrInst dry ttl now db j with
      | error e =>
        cases e
        simp [runSonarrList, hinst, except_bind_error]
      | ok v =>
        obtain ⟨db1, lg1, m, u⟩ := v
        simp [runSonarrList, hinst, except_bind_ok,
          runSonarrList_mem_raises dry ttl now i hi rest hmem db1,
          except_bind_error]

theorem runRadarrList_mem_raises (dry : Bool) (ttl now : Int) (i : RadarrInst)
    (hi : ∀ db, runRadarrInst dry ttl now db i = .error ()) :
    ∀ (l : List RadarrInst), i ∈ l → ∀ db,
      runRadarrList dry ttl now l db = .error ()
  | [], h => absurd h (List.not_mem_nil i)
  | j :: rest, h => by
    intro db
    rcases List.mem_cons.mp h with rfl | hmem
    · simp [runRadarrList, hi db, except_bind_error]
    · cases hinst : runRadarrInst dry ttl now db j with
      | error e =>
        cases e
        simp [runRadarrList, hinst, except_bind_error]
      | ok v =>
        obtain ⟨db1, lg1, m, u⟩ := v
        simp [runRadarrList, hinst, except_bind_ok,
          runRadarrList_mem_raises dry ttl now i hi rest hmem db1,
          except_bind_error]

theorem run_raises_of_sonarr_mem (cfg : Config) (db0 : DB) (now : Int)
    (dry : Bool) (i : SonarrInst) (hmem : i ∈ cfg.sonarr)
    (hi : ∀ db, runSonarrInst dry cfg.ttlHours now db i = .error ()) :
    run cfg db0 now dry = .error () := by
  unfold run
  simp only []
  rw [runSonarrList_mem_raises dry cfg.ttlHours now i hi cfg.sonarr hmem
    (purge_expired db0 cfg.ttlHours now).1, except_bind_error]

theorem run_raises_of_radarr_mem (cfg : Config) (db0 : DB) (now : Int)
    (dry : Bool) (i : RadarrInst) (hmem : i ∈ cfg.radarr)
    (hi : ∀ db, runRadarrInst dry cfg.ttlHours now db i = .error ()) :
    run cfg db0 now dry = .error () := by
  unfold run
  simp only []
  cases hs : runSonarrList dry cfg.ttlHours now cfg.sonarr
      (purge_expired db0 cfg.ttlHours now).1 with
  | error e =>
    cases e
    rw [except_bind_error]
  | ok v =>
    obtain ⟨db1, lgS, sm, su⟩ := v
    simp [except_bind_ok,
      runRadarrList_mem_raises dry cfg.ttlHours now i hi cfg.radarr hmem db1,
      except_bind_error]

/-- C2 (amended): a transport or protocol failure during a
candidate-source query — the count GET, or the page GET when the count
returned a non-zero total — is NOT caught by the orchestrator, for any
of the four hunt kinds: the hunt raises; on any configured reachable
instance (Sonarr or Radarr, at any position) with that hunt enabled,
the exception propagates out of `run` and the remaining instances and
kinds of the cycle are not processed.  Only connectivity-check
failures (whole instance skipped, cycle continues) and per-item
trigger failures (every selected item still attempted) are caught. -/
theorem C2_source_failure_aborts_cycle :
    (∀ (env : HuntEnv Episode) inst db ttl now limit mo sf dry,
      sourceQueryFails env →
      sonarr_hunt_missing env inst db ttl now limit mo sf dry = .error ())
    ∧ (∀ (env : HuntEnv Episode) inst db ttl now limit mo dry,
      sourceQueryFails env →
      sonarr_hunt_upgrades env inst db ttl now limit mo dry = .error ())
    ∧ (∀ (env : HuntEnv Movie) inst db ttl now limit mo sf dry,
      sourceQueryFails env →
      radarr_hunt_missing env inst db ttl now limit mo sf dry = .error ())
    ∧ (∀ (env : HuntEnv Movie) inst db ttl now limit mo dry,
      sourceQueryFails env →
      radarr_hunt_upgrades env inst db ttl now limit mo dry = .error ())
    ∧ (∀ cfg db0 now dry (i : SonarrInst), i ∈ cfg.sonarr →
      i.hasUrl = true → i.hasApiKey = true → i.connOk = true →
      ((i.hunt_missing > 0 ∧ sourceQueryFails i.missingEnv)
        ∨ (i.hunt_upgrades > 0 ∧ sourceQueryFails i.upgradesEnv)) →
      run cfg db0 now dry = .error ())
    ∧ (∀ cfg db0 now dry (i : RadarrInst), i ∈ cfg.radarr →
      i.hasUrl = true → i.hasApiKey = true → i.connOk = true →
      ((i.hunt_missing > 0 ∧ sourceQueryFails i.missingEnv)
        ∨ (i.hunt_upgrades > 0 ∧ sourceQueryFails i.upgradesEnv)) →
      run cfg db0 now dry = .error ())
    ∧ (∀ dry ttl now db (j : SonarrInst), j.connOk = false →
      runSonarrInst dry ttl now db j = .ok (db, [], 0, 0))
    ∧ (∀ dry ttl now db (j : RadarrInst), j.connOk = false →
      runRadarrInst dry ttl now db j = .ok (db, [], 0, 0))
    ∧ (∀ trig app inst now db ids,
      (processItems false trig app inst now db ids).2.1 = ids) := by
  refine ⟨sonarr_hunt_missing_raises, sonarr_hunt_upgrades_raises,
    radarr_hunt_missing_raises, radarr_hunt_upgrades_raises,
    ?_, ?_, ?_, ?_, ?_⟩
  · intro cfg db0 now dry i hmem hu hk hc hf
    exact run_raises_of_sonarr_mem cfg db0 now dry i hmem
      (runSonarrInst_raises dry cfg.ttlHours now i hu hk hc hf)
  · intro cfg db0 now dry i hmem hu hk hc hf
    exact run_raises_of_radarr_mem cfg db0 now dry i hmem
      (runRadarrInst_raises dry cfg.ttlHours now i hu hk hc hf)
  · intro dry ttl now db j hj
    unfold runSonarrInst
    cases hcase : (!j.hasUrl || !j.hasApiKey) with
    | true => rw [if_pos rfl]
    | false => rw [if_neg (by simp), if_pos (by simp [hj])]
  · intro dry ttl now db j hj
    unfold runRadarrInst
    cases hcase : (!j.hasUrl || !j.hasApiKey) with
    | true => rw [if_pos rfl]
    | false => rw [if_neg (by simp), if_pos (by simp [hj])]
  · intro trig app inst now db ids
    rw [processItems_run_eq]

/-- Witness for the amended C2: a page-fetch failure on the enabled
upgrade hunt of the second Radarr instance (the first one, unreachable,
is skipped) aborts a concrete cycle; a connectivity failure is caught;
and a batch whose every trigger fails still attempts every id. -/
theorem C2_source_failure_aborts_cycle_witness :
    run ⟨168, [],
      [⟨"R1", true, true, false, 5, 0, true, true,
         ⟨false, 0, false, [], 0, [], fun _ => true⟩,
         ⟨false, 0, false, [], 0, [], fun _ => true⟩⟩,
       ⟨"R2", true, true, true, 0, 3, true, true,
         ⟨false, 0, false, [], 0, [], fun _ => true⟩,
         ⟨false, 2, true, [], 0, [], fun _ => true⟩⟩]⟩
      [] 0 false = .error ()
    ∧ runSonarrInst false 168 0 []
      ⟨"S", true, true, false, 5, 0, true, true,
        ⟨false, 0, false, [], 0, [], fun _ => true⟩,
        ⟨false, 0, false, [], 0, [], fun _ => true⟩⟩
      = .ok ([], [], 0, 0)
    ∧ (processItems false (fun _ => false) "sonarr" "A" 0 [] [1, 2]).2.1
      = [1, 2] := by
  refine ⟨?_, ?_, ?_⟩
  · exact C2_source_failure_aborts_cycle.2.2.2.2.2.1
      ⟨168, [],
        [⟨"R1", true, true, false, 5, 0, true, true,
           ⟨false, 0, false, [], 0, [], fun _ => true⟩,
           ⟨false, 0, false, [], 0, [], fun _ => true⟩⟩,
         ⟨"R2", true, true, true, 0, 3, true, true,
           ⟨false, 0, false, [], 0, [], fun _ => true⟩,
           ⟨false, 2, true, [], 0, [], fun _ => true⟩⟩]⟩
      [] 0 false
      ⟨"R2", true, true, true, 0, 3, true, true,
        ⟨false, 0, false, [], 0, [], fun _ => true⟩,
        ⟨false, 2, true, [], 0, [], fun _ => true⟩⟩
      (List.mem_cons_of_mem _ (List.mem_cons_self _ _)) rfl rfl rfl
      (Or.inr ⟨by decide, Or.inr ⟨by decide, rfl⟩⟩)
  · exact C2_source_failure_aborts_cycle.2.2.2.2.2.2.1 false 168 0 [] _ rfl
  · exact C2_source_failure_aborts_cycle.2.2.2.2.2.2.2.2
      (fun _ => false) "sonarr" "A" 0 [] [1, 2]

/-! ## Counters -/

/-- The searched counter of a batch is bounded by the number of ids
and equals the number of successful triggers in the log. -/
theorem processItems_count (dry : Bool) (trig : Nat → Bool) (app inst : String)
    (now : Int) (db : DB) (ids : List Nat) :
    (processItems dry trig app inst now db ids).2.2 ≤ ids.length
    ∧ (processItems dry trig app inst now db ids).2.2
      = ((processItems dry trig app inst now db ids).2.1.filter trig).length := by
  cases dry with
  | false =>
    rw [processItems_run_eq]
    exact ⟨List.length_filter_le _ _, rfl⟩
  | true =>
    rw [processItems_dry]
    exact ⟨Nat.zero_le _, rfl⟩

/-- The selection-plus-trigger core of every hunt searches at most
`min limit (number of candidates)` items. -/
theorem hunt_core_count (dry : Bool) (trig : Nat → Bool) (rS : List Nat)
    (app inst : String) (now : Int) (db : DB) (cands : List α)
    (idOf : α → Nat) (limit : Nat) :
    (processItems dry trig app inst now db
      ((sample rS cands (min limit cands.length)).map idOf)).2.2
      ≤ min limit cands.length
    ∧ (processItems dry trig app inst now db
        ((sample rS cands (min limit cands.length)).map idOf)).2.2
      = (((processItems dry trig app inst now db
          ((sample rS cands (min limit cands.length)).map idOf)).2.1).filter trig).length := by
  have hc := processItems_count dry trig app inst now db
    ((sample rS cands (min limit cands.length)).map idOf)
  refine ⟨le_trans hc.1 ?_, hc.2⟩
  rw [List.length_map, sample_length]
  omega

theorem sonarr_hunt_missing_count (env : HuntEnv Episode) (inst : String)
    (db : DB) (ttl now : Int) (limit : Nat) (mo sf dry : Bool) (r : HuntResult)
    (h : sonarr_hunt_missing env inst db ttl now limit mo sf dry = .ok r) :
    r.2.2 ≤ min limit
      (sonarrMissingCandidates env.pageRecords db ttl now inst mo sf).length
    ∧ r.2.2 = (r.2.1.filter env.triggerOk).length := by
  unfold sonarr_hunt_missing at h
  by_cases hcf : env.countFails = true
  · rw [if_pos hcf] at h
    exact Except.noConfusion h
  · rw [if_neg hcf] at h
    by_cases htr : env.totalRecords = 0
    · rw [if_pos htr] at h
      injection h with h
      rw [← h]
      exact ⟨Nat.zero_le _, rfl⟩
    · rw [if_neg htr] at h
      by_cases hpf : env.pageFails = true
      · rw [if_pos hpf] at h
        exact Except.noConfusion h
      · rw [if_neg hpf] at h
        by_cases hemp : (sonarrMissingCandidates env.pageRecords db ttl now inst
            mo sf).isEmpty = true
        · rw [if_pos hemp] at h
          injection h with h
          rw [← h]
          exact ⟨Nat.zero_le _, rfl⟩
        · rw [if_neg hemp] at h
          injection h with h
          rw [← h]
          exact hunt_core_count dry env.triggerOk env.rSample "sonarr" inst now db
            _ _ limit

theorem sonarr_hunt_upgrades_count (env : HuntEnv Episode) (inst : String)
    (db : DB) (ttl now : Int) (limit : Nat) (mo dry : Bool) (r : HuntResult)
    (h : sonarr_hunt_upgrades env inst db ttl now limit mo dry = .ok r) :
    r.2.2 ≤ min limit
      (sonarrUpgradeCandidates env.pageRecords db ttl now inst mo).length
    ∧ r.2.2 = (r.2.1.filter env.triggerOk).length := by
  unfold sonarr_hunt_upgrades at h
  by_cases hcf : env.countFails = true
  · rw [if_pos hcf] at h
    exact Except.noConfusion h
  · rw [if_neg hcf] at h
    by_cases htr : env.totalRecords = 0
    · rw [if_pos htr] at h
      injection h with h
      rw [← h]
      exact ⟨Nat.zero_le _, rfl⟩
    · rw [if_neg htr] at h
      by_cases hpf : env.pageFails = true
      · rw [if_pos hpf] at h
        exact Except.noConfusion h
      · rw [if_neg hpf] at h
        by_cases hemp : (sonarrUpgradeCandidates env.pageRecords db ttl now inst
            mo).isEmpty = true
        · rw [if_pos hemp] at h
          injection h with h
          rw [← h]
          exact ⟨Nat.zero_le _, rfl⟩
        · rw [if_neg hemp] at h
          injection h with h
          rw [← h]
          exact hunt_core_count dry env.triggerOk env.rSample "sonarr_upgrade" inst
            now db _ _ limit

theorem radarr_hunt_missing_count (env : HuntEnv Movie) (inst : String)
    (db : DB) (ttl now : Int) (limit : Nat) (mo sf dry : Bool) (r : HuntResult)
    (h : radarr_hunt_missing env inst db ttl now limit mo sf dry = .ok r) :
    r.2.2 ≤ min limit
      (radarrMissingCandidates env.pageRecords db ttl now inst mo sf).length
    ∧ r.2.2 = (r.2.1.filter env.triggerOk).length := by
  unfold radarr_hunt_missing at h
  by_cases hcf : env.countFails = true
  · rw [if_pos hcf] at h
    exact Except.noConfusion h
  · rw [if_neg hcf] at h
    by_cases htr : env.totalRecords = 0
    · rw [if_pos htr] at h
      injection h with h
      rw [← h]
      exact ⟨Nat.zero_le _, rfl⟩
    · rw [if_neg htr] at h
      by_cases hpf : env.pageFails = true
      · rw [if_pos hpf] at h
        exact Except.noConfusion h
      · rw [if_neg hpf] at h
        by_cases hemp : (radarrMissingCandidates env.pageRecords db ttl now inst
            mo sf).isEmpty = true
        · rw [if_pos hemp] at h
          injection h with h
          rw [← h]
          exact ⟨Nat.zero_le _, rfl⟩
        · rw [if_neg hemp] at h
          injection h with h
          rw [← h]
          exact hunt_core_count dry env.triggerOk env.rSample "radarr" inst now db
            _ _ limit

theorem radarr_hunt_upgrades_count (env : HuntEnv Movie) (inst : String)
    (db : DB) (ttl now : Int) (limit : Nat) (mo dry : Bool) (r : HuntResult)
    (h : radarr_hunt_upgrades env inst db ttl now limit mo dry = .ok r) :
    r.2.2 ≤ min limit
      (radarrUpgradeCandidates env.pageRecords db ttl now inst mo).length
    ∧ r.2.2 = (r.2.1.filter env.triggerOk).length := by
  unfold radarr_hunt_upgrades at h
  by_cases hcf : env.countFails = true
  · rw [if_pos hcf] at h
    exact Except.noConfusion h
  · rw [if_neg hcf] at h
    by_cases htr : env.totalRecords = 0
    · rw [if_pos htr] at h
      injection h with h
      rw [← h]
      exact ⟨Nat.zero_le _, rfl⟩
    · rw [if_neg htr] at h
      by_cases hpf : env.pageFails = true
      · rw [if_pos hpf] at h
        exact Except.noConfusion h
      · rw [if_neg hpf] at h
        by_cases hemp : (radarrUpgradeCandidates env.pageRecords db ttl now inst
            mo).isEmpty = true
        · rw [if_pos hemp] at h
          injection h with h
          rw [← h]
          exact ⟨Nat.zero_le _, rfl⟩
        · rw [if_neg hemp] at h
          injection h with h
          rw [← h]
          exact hunt_core_count dry env.triggerOk env.rSample "radarr_upgrade" inst
            now db _ _ limit

/-- The accumulated counters of the Sonarr loop are the sums of the
per-instance counts recorded by the instrumented trace. -/
theorem runSonarrList_eq_trace (dry : Bool) (ttl now : Int) :
    ∀ (l : List SonarrInst) (db db1 : DB) (lg : List Nat) (m u : Nat),
    runSonarrList dry ttl now l db = .ok (db1, lg, m, u) →
    ∃ t, runSonarrTrace dry ttl now l db = .ok (db1, t)
      ∧ m = (t.map Prod.fst).sum ∧ u = (t.map Prod.snd).sum
  | [], db, db1, lg, m, u => by
    intro h
    simp only [runSonarrList, Except.ok.injEq, Prod.mk.injEq] at h
    exact ⟨[], by simp [runSonarrTrace, h.1], by simp [← h.2.2.1], by simp [← h.2.2.2]⟩
  | i :: rest, db, db1, lg, m, u => by
    intro h
    simp only [runSonarrList] at h
    cases hinst : runSonarrInst dry ttl now db i with
    | error e =>
      rw [hinst, except_bind_error] at h
      exact Except.noConfusion h
    | ok v =>
      obtain ⟨dbi, lgi, mi, ui⟩ := v
      rw [hinst, except_bind_ok] at h
      cases hrest : runSonarrList dry ttl now rest dbi with
      | error e =>
        rw [hrest, except_bind_error] at h
        exact Except.noConfusion h
      | ok w =>
        obtain ⟨dbr, lgr, mr, ur⟩ := w
        rw [hrest, except_bind_ok] at h
        simp only [Except.ok.injEq, Prod.mk.injEq] at h
        obtain ⟨t, ht, hm, hu⟩ :=
          runSonarrList_eq_trace dry ttl now rest dbi dbr lgr mr ur hrest
        refine ⟨(mi, ui) :: t, ?_, ?_, ?_⟩
        · simp only [runSonarrTrace]
          rw [hinst, except_bind_ok, ht, except_bind_ok, h.1]
        · simp [← h.2.2.1, hm]
        · simp [← h.2.2.2, hu]

/-- The accumulated counters of the Radarr loop are the sums of the
per-instance counts recorded by the instrumented trace. -/
theorem runRadarrList_eq_trace (dry : Bool) (ttl now : Int) :
    ∀ (l : List RadarrInst) (db db1 : DB) (lg : List Nat) (m u : Nat),
    runRadarrList dry ttl now l db = .ok (db1, lg, m, u) →
    ∃ t, runRadarrTrace dry ttl now l db = .ok (db1, t)
      ∧ m = (t.map Prod.fst).sum ∧ u = (t.map Prod.snd).sum
  | [], db, db1, lg, m, u => by
    intro h
    simp only [runRadarrList, Except.ok.injEq, Prod.mk.injEq] at h
    exact ⟨[], by simp [runRadarrTrace, h.1], by simp [← h.2.2.1], by simp [← h.2.2.2]⟩
  | i :: rest, db, db1, lg, m, u => by
    intro h
    simp only [runRadarrList] at h
    cases hinst : runRadarrInst dry ttl now db i with
    | error e =>
      rw [hinst, except_bind_error] at h
      exact Except.noConfusion h
    | ok v =>
      obtain ⟨dbi, lgi, mi, ui⟩ := v
      rw [hinst, except_bind_ok] at h
      cases hrest : runRadarrList dry ttl now rest dbi with
      | error e =>
        rw [hrest, except_bind_error] at h
        exact Except.noConfusion h
      | ok w =>
        obtain ⟨dbr, lgr, mr, ur⟩ := w
        rw [hrest, except_bind_ok] at h
        simp only [Except.ok.injEq, Prod.mk.injEq] at h
        obtain ⟨t, ht, hm, hu⟩ :=
          runRadarrList_eq_trace dry ttl now rest dbi dbr lgr mr ur hrest
        refine ⟨(mi, ui) :: t, ?_, ?_, ?_⟩
        · simp only [runRadarrTrace]
          rw [hinst, except_bind_ok, ht, except_bind_ok, h.1]
        · simp [← h.2.2.1, hm]
        · simp [← h.2.2.2, hu]

/-- C10: every hunt returns a searched count that never exceeds
`min(limit, number of remaining candidates)` and equals the number of
successful trigger-plus-mark operations in its batch; and the totals
returned by a successful `run` are exactly the sums of the
per-instance counts over the four fixed kind keys (hence every counter
is a sum of `Nat`s and non-negative). -/
theorem C10_counts_and_totals :
    (∀ env inst db ttl now limit mo sf dry r,
      sonarr_hunt_missing env inst db ttl now limit mo sf dry = .ok r →
      r.2.2 ≤ min limit
        (sonarrMissingCandidates env.pageRecords db ttl now inst mo sf).length
      ∧ r.2.2 = (r.2.1.filter env.triggerOk).length)
    ∧ (∀ env inst db ttl now limit mo dry r,
      sonarr_hunt_upgrades env inst db ttl now limit mo dry = .ok r →
      r.2.2 ≤ min limit
        (sonarrUpgradeCandidates env.pageRecords db ttl now inst mo).length
      ∧ r.2.2 = (r.2.1.filter env.triggerOk).length)
    ∧ (∀ env inst db ttl now limit mo sf dry r,
      radarr_hunt_missing env inst db ttl now limit mo sf dry = .ok r →
      r.2.2 ≤ min limit
        (radarrMissingCandidates env.pageRecords db ttl now inst mo sf).length
      ∧ r.2.2 = (r.2.1.filter env.triggerOk).length)
    ∧ (∀ env inst db ttl now limit mo dry r,
      radarr_hunt_upgrades env inst db ttl now limit mo dry = .ok r →
      r.2.2 ≤ min limit
        (radarrUpgradeCandidates env.pageRecords db ttl now inst mo).length
      ∧ r.2.2 = (r.2.1.filter env.triggerOk).length)
    ∧ (∀ cfg db0 now dry db1 lg t,
      run cfg db0 now dry = .ok (db1, lg, t) →
      ∃ tS tR dbS,
        runSonarrTrace dry cfg.ttlHours now cfg.sonarr
          (purge_expired db0 cfg.ttlHours now).1 = .ok (dbS, tS)
        ∧ runRadarrTrace dry cfg.ttlHours now cfg.radarr dbS = .ok (db1, tR)
        ∧ t = ⟨(tS.map Prod.fst).sum, (tS.map Prod.snd).sum,
               (tR.map Prod.fst).sum, (tR.map Prod.snd).sum⟩) := by
  refine ⟨sonarr_hunt_missing_count, sonarr_hunt_upgrades_count,
    radarr_hunt_missing_count, radarr_hunt_upgrades_count, ?_⟩
  intro cfg db0 now dry db1 lg t h
  unfold run at h
  simp only [] at h
  cases hs : runSonarrList dry cfg.ttlHours now cfg.sonarr
      (purge_expired db0 cfg.ttlHours now).1 with
  | error e =>
    rw [hs, except_bind_error] at h
    exact Except.noConfusion h
  | ok v =>
    obtain ⟨dbS, lgS, sm, su⟩ := v
    rw [hs, except_bind_ok] at h
    cases hr : runRadarrList dry cfg.ttlHours now cfg.radarr dbS with
    | error e =>
      rw [hr, except_bind_error] at h
      exact Except.noConfusion h
    | ok w =>
      obtain ⟨dbR, lgR, rm, ru⟩ := w
      rw [hr, except_bind_ok] at h
      simp only [Except.ok.injEq, Prod.mk.injEq] at h
      obtain ⟨tS, htS, hsm, hsu⟩ :=
        runSonarrList_eq_trace dry cfg.ttlHours now cfg.sonarr _ dbS lgS sm su hs
      obtain ⟨tR, htR, hrm, hru⟩ :=
        runRadarrList_eq_trace dry cfg.ttlHours now cfg.radarr dbS dbR lgR rm ru hr
      refine ⟨tS, tR, dbS, htS, ?_, ?_⟩
      · rw [h.1] at htR
        exact htR
      · rw [← h.2.2]
        rw [hsm, hsu, hrm, hru]

/-- Witness for C10 on a concrete one-instance, one-episode cycle in
which exactly one item is searched. -/
theorem C10_counts_and_totals_witness :
    (((([⟨"sonarr", "A", "3", 0⟩] : DB), ([3] : List Nat), (1 : Nat)).2.2
        ≤ min 1 (sonarrMissingCandidates [⟨3, true, true, none⟩] [] 168 0 "A"
            true true).length)
      ∧ ((([⟨"sonarr", "A", "3", 0⟩] : DB), ([3] : List Nat), (1 : Nat)).2.2
        = (((([⟨"sonarr", "A", "3", 0⟩] : DB), ([3] : List Nat), (1 : Nat)).2.1).filter
            (fun _ => true)).length))
    ∧ ∃ tS tR dbS,
      runSonarrTrace false 168 0
          [⟨"A", true, true, true, 1, 0, true, true,
            ⟨false, 1, false, [⟨3, true, true, none⟩], 0, [0], fun _ => true⟩,
            ⟨false, 0, false, [], 0, [], fun _ => true⟩⟩]
          (purge_expired [] 168 0).1 = .ok (dbS, tS)
      ∧ runRadarrTrace false 168 0 [] dbS
          = .ok ([⟨"sonarr", "A", "3", 0⟩], tR)
      ∧ (⟨1, 0, 0, 0⟩ : Totals) = ⟨(tS.map Prod.fst).sum, (tS.map Prod.snd).sum,
          (tR.map Prod.fst).sum, (tR.map Prod.snd).sum⟩ := by
  have h := C10_counts_and_totals
  constructor
  · exact h.1 ⟨false, 1, false, [⟨3, true, true, none⟩], 0, [0], fun _ => true⟩
      "A" [] 168 0 1 true true false ([⟨"sonarr", "A", "3", 0⟩], [3], 1) rfl
  · exact h.2.2.2.2 ⟨168, [⟨"A", true, true, true, 1, 0, true, true,
      ⟨false, 1, false, [⟨3, true, true, none⟩], 0, [0], fun _ => true⟩,
      ⟨false, 0, false, [], 0, [], fun _ => true⟩⟩], []⟩ [] 0 false
      [⟨"sonarr", "A", "3", 0⟩] [3] ⟨1, 0, 0, 0⟩ rfl

end Huntarr
